import Mathlib

/-!
Shallow embedding of the record-set core of the hexya/yep ORM
(package `models`, file `t12_recordset_test.go` second part, which holds the
`RecordCollection` implementation).

Go machine values are embedded as follows: `int64` identifiers become `Int`,
field values become the tagged `Value` type, a Go `FieldMap` becomes an
association list from `String` to `Value`, and a panic (`tools.LogAndPanic`)
becomes an `Except.error` carrying the diagnostic message.

The Go struct `RecordCollection` holds its `Query` through a POINTER
(`query *Query`).  To embed that faithfully, Query values live in a store
(a list indexed by natural numbers) inside `EnvState`; a `RecordCollection`
holds the index of its Query.  Writing through the pointer is embedded as
updating the store at that index, so aliasing between collections that share
a Query pointer is preserved exactly as in the source.

Components whose implementation is not part of the sources here (the
`Condition` combinators, the SQL rendering plus the executor, and the
`Cache`) are modelled from the spec; each such definition carries a doc
comment starting with `Modelled from the spec:`.
-/

namespace Hexya

/-- Tagged field value: the variants of values the engine moves around
(Go `interface` dynamic values in field maps). `idsV` is an identifier
list as used by `in` clauses and many-to-many encodings. -/
inductive Value where
  | intV  (n : Int)
  | strV  (s : String)
  | boolV (b : Bool)
  | idsV  (l : List Int)
  | nilV
deriving DecidableEq, Repr

/-- A Go `FieldMap`: field name (or column name) to value. -/
abbrev FieldMap := List (String × Value)

/-- One leaf predicate of a Condition: (field, operator, value). -/
structure Clause where
  field : String
  op : String
  value : Value
deriving DecidableEq, Repr

/-- Modelled from the spec: `Condition` is an immutable, combinable
predicate tree (AND / OR / AND NOT of field-operator-value clauses,
plus whole-tree conjunction `AndCond`).  Its Go implementation is not in
the sources here; only its use sites are. -/
inductive Condition where
  | empty
  | andC    (c : Condition) (cl : Clause)
  | andNotC (c : Condition) (cl : Clause)
  | orC     (c : Condition) (cl : Clause)
  | andCond (c1 c2 : Condition)
deriving DecidableEq, Repr

/-- Modelled from the spec: `NewCondition()` returns the empty condition,
which matches everything. -/
def NewCondition : Condition := Condition.empty

/-- Modelled from the spec: `cond.And(field, op, value)` returns a new tree
conjoining the receiver with one leaf clause. -/
def Condition.And (c : Condition) (field op : String) (v : Value) : Condition :=
  Condition.andC c ⟨field, op, v⟩

/-- Modelled from the spec: `cond.AndNot(field, op, value)`. -/
def Condition.AndNot (c : Condition) (field op : String) (v : Value) : Condition :=
  Condition.andNotC c ⟨field, op, v⟩

/-- Modelled from the spec: `cond.Or(field, op, value)`. -/
def Condition.Or (c : Condition) (field op : String) (v : Value) : Condition :=
  Condition.orC c ⟨field, op, v⟩

/-- Modelled from the spec: `cond.AndCond(other)` conjoins two whole trees. -/
def Condition.AndCond (c other : Condition) : Condition :=
  Condition.andCond c other

/-- Field type of a model field, used for zero values of `Get` on an empty
collection (Go `reflect.Zero(fi.structField.Type)`). -/
inductive FieldType where
  | tInt
  | tString
  | tBool
deriving DecidableEq, Repr

/-- The Go zero value of a field type. -/
def FieldType.zeroValue : FieldType → Value
  | .tInt => .intV 0
  | .tString => .strV ""
  | .tBool => .boolV false

/-- Static field metadata from the model registry (consumed, read-only):
declared name, JSON/column name, stored flag, value type. -/
structure FieldInfo where
  name : String
  json : String
  stored : Bool
  ftype : FieldType
deriving DecidableEq, Repr

/-- Model metadata: name plus the field registry. -/
structure ModelInfo where
  name : String
  fields : List FieldInfo
deriving DecidableEq, Repr

/-- Modelled from the spec: registry lookup by field name, accepting either
the declared name or the JSON/column name. -/
def fieldByName (m : ModelInfo) (s : String) : Option FieldInfo :=
  m.fields.find? (fun fi => fi.name == s || fi.json == s)

/-- The column (JSON) key a field name renders to; unknown names are kept. -/
def jsonKey (m : ModelInfo) (s : String) : String :=
  match fieldByName m s with
  | some fi => fi.json
  | none => s

/-- The Query shape: condition plus order/group/limit/offset/distinct
(Go struct `Query`; the `recordSet` back-reference used only for SQL
rendering is not needed by the semantic model). -/
structure Query where
  cond : Condition
  orders : List String
  groups : List String
  limit : Int
  offset : Int
  distinct : Bool
deriving DecidableEq, Repr

/-- Modelled from the spec: `newQuery()` returns a zero-valued query shape. -/
def newQuery : Query :=
  { cond := NewCondition, orders := [], groups := [], limit := 0, offset := 0,
    distinct := false }

/-- One database row: identifier plus its column values (columns keyed by
JSON/column names). -/
structure Record where
  id : Int
  fields : FieldMap
deriving DecidableEq, Repr

/-- A table is the ordered list of rows of one model. -/
abbrev Table := List Record

/-- The environment state threaded through every operation: the store of
allocated `Query` values (Go heap cells pointed to by `query *Query`),
the database tables by model name, the per-environment cache, and a count
of database round trips performed so far. -/
structure EnvState where
  store : List Query
  db : List (String × Table)
  cache : List ((String × Int) × FieldMap)
  trips : Nat
deriving DecidableEq, Repr

/-- Dereference a Query pointer in the store. -/
def getQuery (σ : EnvState) (ref : Nat) : Query :=
  (σ.store.get? ref).getD newQuery

/-- Write through a Query pointer in the store. -/
def setQuery (σ : EnvState) (ref : Nat) (q : Query) : EnvState :=
  { σ with store := σ.store.set ref q }

/-- The table of a model in the database. -/
def getTable (db : List (String × Table)) (model : String) : Table :=
  ((db.find? (fun e => e.1 == model)).map (fun e => e.2)).getD []

/-- Replace the table of a model in the database. -/
def setTable (db : List (String × Table)) (model : String) (t : Table) :
    List (String × Table) :=
  (model, t) :: db.filter (fun e => e.1 != model)

/-- The Go struct `RecordCollection`: model metadata, the Query POINTER
(store index), and the fetched identifiers.  The `env` back-reference is
the explicitly threaded `EnvState`; the `callStack` used for method
dispatch is not needed by any claim. -/
structure RecordCollection where
  mi : ModelInfo
  queryRef : Nat
  ids : List Int
deriving DecidableEq, Repr

/-- `rs.Ids()`. -/
def RecordCollection.Ids (rs : RecordCollection) : List Int := rs.ids

/-- `rs.IsEmpty()`. -/
def RecordCollection.IsEmpty (rs : RecordCollection) : Bool :=
  rs.ids.length == 0

/-- `rs.Len()`. -/
def RecordCollection.Len (rs : RecordCollection) : Nat := rs.ids.length

/-- `rs.String()`: `model(id1,id2,...)`, used in diagnostics. -/
def RecordCollection.toStr (rs : RecordCollection) : String :=
  rs.mi.name ++ "(" ++ String.intercalate "," (rs.ids.map toString) ++ ")"

/-- `rs.Filter(fieldName, op, data)`: writes the conjoined condition through
the shared Query pointer and returns the receiver copy (same pointer). -/
def Filter (σ : EnvState) (rs : RecordCollection) (fieldName op : String)
    (data : Value) : EnvState × RecordCollection :=
  let q := getQuery σ rs.queryRef
  (setQuery σ rs.queryRef { q with cond := q.cond.And fieldName op data }, rs)

/-- `rs.Exclude(fieldName, op, data)`. -/
def Exclude (σ : EnvState) (rs : RecordCollection) (fieldName op : String)
    (data : Value) : EnvState × RecordCollection :=
  let q := getQuery σ rs.queryRef
  (setQuery σ rs.queryRef { q with cond := q.cond.AndNot fieldName op data }, rs)

/-- `rs.Search(cond)`. -/
def Search (σ : EnvState) (rs : RecordCollection) (cond : Condition) :
    EnvState × RecordCollection :=
  let q := getQuery σ rs.queryRef
  (setQuery σ rs.queryRef { q with cond := q.cond.AndCond cond }, rs)

/-- `rs.Limit(limit)`. -/
def LimitRS (σ : EnvState) (rs : RecordCollection) (limit : Int) :
    EnvState × RecordCollection :=
  let q := getQuery σ rs.queryRef
  (setQuery σ rs.queryRef { q with limit := limit }, rs)

/-- `rs.Offset(offset)`. -/
def OffsetRS (σ : EnvState) (rs : RecordCollection) (offset : Int) :
    EnvState × RecordCollection :=
  let q := getQuery σ rs.queryRef
  (setQuery σ rs.queryRef { q with offset := offset }, rs)

/-- `rs.OrderBy(exprs...)`: appends to the order list of the shared Query. -/
def OrderBy (σ : EnvState) (rs : RecordCollection) (exprs : List String) :
    EnvState × RecordCollection :=
  let q := getQuery σ rs.queryRef
  (setQuery σ rs.queryRef { q with orders := q.orders ++ exprs }, rs)

/-- `rs.GroupBy(exprs...)`. -/
def GroupBy (σ : EnvState) (rs : RecordCollection) (exprs : List String) :
    EnvState × RecordCollection :=
  let q := getQuery σ rs.queryRef
  (setQuery σ rs.queryRef { q with groups := q.groups ++ exprs }, rs)

/-- `rs.Distinct()`. -/
def DistinctRS (σ : EnvState) (rs : RecordCollection) :
    EnvState × RecordCollection :=
  let q := getQuery σ rs.queryRef
  (setQuery σ rs.queryRef { q with distinct := true }, rs)

/-- `rc.withIds(ids)`: sets the identifier list on the struct copy; when the
identifier list is non-empty, overrides the condition with
`("ID", "in", ids)` by writing `NewCondition()` through the shared pointer
and then calling `Filter`. -/
def withIds (σ : EnvState) (rc : RecordCollection) (ids : List Int) :
    EnvState × RecordCollection :=
  let rSet := { rc with ids := ids }
  if ids.length > 0 then
    let q := getQuery σ rSet.queryRef
    let σ1 := setQuery σ rSet.queryRef { q with cond := NewCondition }
    Filter σ1 rSet "ID" "in" (Value.idsV ids)
  else
    (σ, rSet)

/-- Lookup in a field map by exact key. -/
def fmapGet (fm : FieldMap) (key : String) : Option Value :=
  (fm.find? (fun kv => kv.1 == key)).map (fun kv => kv.2)

/-- Delete a key from a field map (Go `delete(fMap, key)`). -/
def fmapDelete (fm : FieldMap) (key : String) : FieldMap :=
  fm.filter (fun kv => kv.1 != key)

/-- Set a key in a field map. -/
def fmapSet (fm : FieldMap) (key : String) (v : Value) : FieldMap :=
  (key, v) :: fmapDelete fm key

/-- Lookup in a field map resolving the name through the registry: the exact
key first, then the declared name, then the JSON/column name. -/
def fmapLookup (m : ModelInfo) (fm : FieldMap) (s : String) : Option Value :=
  match fmapGet fm s with
  | some v => some v
  | none =>
    match fieldByName m s with
    | some fi =>
      match fmapGet fm fi.name with
      | some v => some v
      | none => fmapGet fm fi.json
    | none => none

/-- The value of a field of a database row; the identifier column is the
row identifier itself. -/
def recGet (m : ModelInfo) (r : Record) (s : String) : Value :=
  if s == "id" || s == "ID" then Value.intV r.id
  else (fmapLookup m r.fields s).getD Value.nilV

/-- Modelled from the spec: operator semantics of a rendered WHERE clause
(the SQL rendering and executor are outside the sources here).  Covers the
operator set the spec requires. -/
def evalOp (op : String) (a b : Value) : Bool :=
  match op with
  | "=" => a == b
  | "!=" => a != b
  | "in" =>
    match a, b with
    | Value.intV n, Value.idsV l => l.contains n
    | _, _ => false
  | "not in" =>
    match a, b with
    | Value.intV n, Value.idsV l => !(l.contains n)
    | _, _ => false
  | ">" =>
    match a, b with
    | Value.intV x, Value.intV y => y < x
    | _, _ => false
  | ">=" =>
    match a, b with
    | Value.intV x, Value.intV y => y ≤ x
    | _, _ => false
  | "<" =>
    match a, b with
    | Value.intV x, Value.intV y => x < y
    | _, _ => false
  | "<=" =>
    match a, b with
    | Value.intV x, Value.intV y => x ≤ y
    | _, _ => false
  | "like" =>
    match a, b with
    | Value.strV x, Value.strV y => (x.splitOn y).length != 1
    | _, _ => false
  | "is null" => a == Value.nilV
  | "is not null" => a != Value.nilV
  | _ => false

/-- Modelled from the spec: depth-first evaluation of a Condition tree
against one row, with WHERE-clause boolean semantics. -/
def evalCond (m : ModelInfo) (c : Condition) (r : Record) : Bool :=
  match c with
  | .empty => true
  | .andC c cl => evalCond m c r && evalOp cl.op (recGet m r cl.field) cl.value
  | .andNotC c cl => evalCond m c r && !(evalOp cl.op (recGet m r cl.field) cl.value)
  | .orC c cl => evalCond m c r || evalOp cl.op (recGet m r cl.field) cl.value
  | .andCond c1 c2 => evalCond m c1 r && evalCond m c2 r

/-- Modelled from the spec: the row set produced by `selectQuery` run through
the executor: rows of the model table matching the condition, in table
order, with OFFSET and LIMIT applied (a zero limit renders no LIMIT
clause).  ORDER BY / GROUP BY / DISTINCT rendering is not modelled; no
claim depends on it. -/
def selectRows (σ : EnvState) (m : ModelInfo) (ref : Nat) : List Record :=
  let q := getQuery σ ref
  let rows := (getTable σ.db m.name).filter (fun r => evalCond m q.cond r)
  let rows := rows.drop q.offset.toNat
  if q.limit > 0 then rows.take q.limit.toNat else rows

/-- `mi.fields.nonRelatedFieldJSONNames()`: all column names of the model
(the models in scope have no related/dotted fields, see the spec note on
`substituteRelatedFields`). -/
def nonRelatedFieldJSONNames (m : ModelInfo) : List String :=
  m.fields.map (fun fi => fi.json)

/-- Modelled from the spec: `filterOnDBFields` keeps the requested fields
that exist and are stored (retrievable as columns) and renders them to
their column names. -/
def filterOnDBFields (m : ModelInfo) (fields : List String) : List String :=
  ((fields.filterMap (fieldByName m)).filter (fun fi => fi.stored)).map
    (fun fi => fi.json)

/-- Modelled from the spec: one scanned row as a field map — the identifier
column plus every requested column with its value (Go `scanToFieldMap`). -/
def rowFieldMap (m : ModelInfo) (dbFields : List String) (r : Record) : FieldMap :=
  ("id", Value.intV r.id) ::
    (dbFields.filter (fun f => f != "id" && f != "ID")).map
      (fun f => (f, recGet m r f))

/-- Modelled from the spec: `cache.addEntry(model, id, fieldMap)` replaces
the full known field slate for that (model, id) pair; lookups see the most
recent entry. -/
def addEntry (c : List ((String × Int) × FieldMap)) (model : String) (id : Int)
    (fm : FieldMap) : List ((String × Int) × FieldMap) :=
  ((model, id), fm) :: c

/-- Modelled from the spec: the current slate of a record in the cache. -/
def getRecordSlate (c : List ((String × Int) × FieldMap)) (model : String)
    (id : Int) : Option FieldMap :=
  ((c.find? (fun e => e.1.1 == model && e.1.2 == id)).map (fun e => e.2))

/-- Modelled from the spec: `cache.get(model, id, field)` returns the cached
value of the field, resolving declared/column names through the registry. -/
def cacheGet (c : List ((String × Int) × FieldMap)) (m : ModelInfo) (id : Int)
    (field : String) : Option Value :=
  (getRecordSlate c m.name id).bind (fun fm => fmapLookup m fm field)

/-- Modelled from the spec: `cache.checkIfInCache(mi, ids, fields)` is true
only if every requested field is present for every requested identifier. -/
def checkIfInCache (c : List ((String × Int) × FieldMap)) (m : ModelInfo)
    (ids : List Int) (fields : List String) : Bool :=
  ids.all (fun id => fields.all (fun f =>
    match getRecordSlate c m.name id with
    | some fm => (fmapLookup m fm f).isSome
    | none => false))

/-- The loop body of `Records()`: one `withIds` call per identifier, in
order, threading the store mutations each call performs. -/
def recordsAux (σ : EnvState) (rc : RecordCollection) :
    List Int → EnvState × List RecordCollection
  | [] => (σ, [])
  | id :: rest =>
    let p := withIds σ rc [id]
    let q := recordsAux p.1 rc rest
    (q.1, p.2 :: q.2)

/-- `rc.Records()`: materializes one singleton RecordCollection per
identifier, preserving order. -/
def Records (σ : EnvState) (rc : RecordCollection) :
    EnvState × List RecordCollection :=
  recordsAux σ rc rc.ids

/-- The cache-population loop of `Read`: `computeFieldValues` is the
identity for the models in scope (no registered computed fields, see the
spec note), and `addEntry` stores each fetched slate under its identifier. -/
def addEntries (σ : EnvState) (m : ModelInfo) :
    List (Int × FieldMap) → EnvState
  | [] => σ
  | p :: rest =>
    addEntries { σ with cache := addEntry σ.cache m.name p.1 p.2 } m rest

/-- `rc.Read(fields...)`: resolves the rows via `selectQuery` (one round
trip), collects identifiers in fetch order, rebinds with `withIds`, then
loops over `Records()` of the result writing each full slate into the
cache. -/
def Read (σ : EnvState) (rc : RecordCollection) (fields : List String) :
    EnvState × RecordCollection :=
  let fields := if fields.isEmpty then nonRelatedFieldJSONNames rc.mi else fields
  let dbFields := filterOnDBFields rc.mi fields
  let rows := selectRows σ rc.mi rc.queryRef
  let σ1 := { σ with trips := σ.trips + 1 }
  let results := rows.map (rowFieldMap rc.mi dbFields)
  let ids := rows.map (fun r => r.id)
  let p := withIds σ1 rc ids
  let q := Records p.1 p.2
  let σ4 := addEntries q.1 rc.mi ((q.2.map (fun r => r.ids.headD 0)).zip results)
  (σ4, p.2)

/-- `rs.ForceLazyLoad()`: always queries, through `Read("id")`. -/
def ForceLazyLoad (σ : EnvState) (rs : RecordCollection) :
    EnvState × RecordCollection :=
  Read σ rs ["id"]

/-- `rs.LazyLoad()`: queries only when the identifier list is empty. -/
def LazyLoad (σ : EnvState) (rs : RecordCollection) :
    EnvState × RecordCollection :=
  if rs.ids.length = 0 then ForceLazyLoad σ rs else (σ, rs)

/-- The diagnostic of `Get` on an unknown field (Go
`tools.LogAndPanic(log, "Unknown field in model", "model", ..., "field", ...)`). -/
def unknownFieldMsg (model field : String) : String :=
  "Unknown field in model : model " ++ model ++ " field " ++ field

/-- `rc.Get(fieldName)`: zero value on an empty collection (unknown field
panics); otherwise serves the FIRST identifier from the cache, triggering
a full-record `Read` when the field is not cache-resident. -/
def Get (σ : EnvState) (rc : RecordCollection) (fieldName : String) :
    EnvState × Except String Value :=
  if rc.IsEmpty then
    match fieldByName rc.mi fieldName with
    | none => (σ, Except.error (unknownFieldMsg rc.mi.name fieldName))
    | some fi => (σ, Except.ok fi.ftype.zeroValue)
  else
    let first := rc.ids.headD 0
    if checkIfInCache σ.cache rc.mi [first] [fieldName] then
      (σ, Except.ok ((cacheGet σ.cache rc.mi first fieldName).getD Value.nilV))
    else
      let p := Read σ rc []
      (p.1, Except.ok ((cacheGet p.1.cache rc.mi first fieldName).getD Value.nilV))

/-- Input of `create`: a field map, or a mutable struct reference
(represented by its field map) whose ID field gets written back. -/
inductive CreateData where
  | fmap (fm : FieldMap)
  | sptr (fm : FieldMap)
deriving DecidableEq, Repr

/-- The field map of a `CreateData` (Go `convertInterfaceToFieldMap`;
`convertValuesToFieldType` is the identity on already-typed values). -/
def CreateData.fieldMap : CreateData → FieldMap
  | .fmap fm => fm
  | .sptr fm => fm

/-- One conditional identifier strip of `create`: the key is deleted ONLY
when present with value zero (Go `if idl, ok := fMap[key]; ok && idl.(int64) == 0`). -/
def stripZeroId (fm : FieldMap) (key : String) : FieldMap :=
  if fmapGet fm key == some (Value.intV 0) then fmapDelete fm key else fm

/-- The cleaning step of `create`: conditionally deletes the `id` then the
`ID` key (each only when present with value zero), then deletes every
non-stored field by declared and by column name (the loop over
`registryByJSON`). -/
def cleanCreateFMap (m : ModelInfo) (fm : FieldMap) : FieldMap :=
  m.fields.foldl
    (fun acc cf =>
      if !cf.stored then fmapDelete (fmapDelete acc cf.name) cf.json else acc)
    (stripZeroId (stripZeroId fm "id") "ID")

/-- Modelled from the spec: the database-generated identifier for an INSERT
into a table (a fresh positive identifier). -/
def nextId (t : Table) : Int :=
  (t.map (fun r => r.id)).foldl max 0 + 1

/-- Modelled from the spec: `insertQuery` inserts only stored,
non-identifier columns present in the map (keyed by column name) and
returns the generated identifier. -/
def insertRow (m : ModelInfo) (t : Table) (fm : FieldMap) : Table × Int :=
  let newId := nextId t
  let cols := (fm.filter (fun kv =>
      kv.1 != "id" && kv.1 != "ID" &&
        (match fieldByName m kv.1 with
         | some fi => fi.stored
         | none => false))).map (fun kv => (jsonKey m kv.1, kv.2))
  (t ++ [{ id := newId, fields := cols }], newId)

/-- `rs.create(data)`: cleans the field map, executes `insertQuery` (one
round trip), recomputes stored fields (a no-op for the models in scope,
which register no stored computed fields), writes the generated identifier
back into a struct input, and returns `withIds([createdId])`. -/
def create (σ : EnvState) (rc : RecordCollection) (data : CreateData) :
    EnvState × RecordCollection × CreateData :=
  let fMap := cleanCreateFMap rc.mi data.fieldMap
  let t := getTable σ.db rc.mi.name
  let ins := insertRow rc.mi t fMap
  let σ1 := { σ with db := setTable σ.db rc.mi.name ins.1,
                     trips := σ.trips + 1 }
  let dataOut : CreateData :=
    match data with
    | .fmap fm => .fmap fm
    | .sptr fm => .sptr (fmapSet fm "ID" (Value.intV ins.2))
  let p := withIds σ1 rc [ins.2]
  (p.1, p.2, dataOut)

/-- The cleaning step of `update`: deletes the `id` / `ID` keys
unconditionally, then every key resolving to a non-stored field (by its
declared or column name). -/
def cleanUpdateFMap (m : ModelInfo) (fm : FieldMap) : FieldMap :=
  let fm := fmapDelete (fmapDelete fm "id") "ID"
  fm.filter (fun kv =>
    match fieldByName m kv.1 with
    | some fi => fi.stored
    | none => true)

/-- Merge an update field map into a row, rendering keys to column names. -/
def fmapMerge (m : ModelInfo) (base fm : FieldMap) : FieldMap :=
  fm.foldl (fun acc kv => fmapSet acc (jsonKey m kv.1) kv.2) base

/-- `rs.update(data)`: cleans the field map, then executes `updateQuery`
(one round trip), whose modelled semantics updates every row of the table
matching the condition behind the shared Query pointer; returns true. -/
def update (σ : EnvState) (rc : RecordCollection) (data : FieldMap) :
    EnvState × Bool :=
  let fMap := cleanUpdateFMap rc.mi data
  let q := getQuery σ rc.queryRef
  let t := getTable σ.db rc.mi.name
  let t2 := t.map (fun r =>
    if evalCond rc.mi q.cond r then { r with fields := fmapMerge rc.mi r.fields fMap }
    else r)
  ({ σ with db := setTable σ.db rc.mi.name t2, trips := σ.trips + 1 }, true)

/-- `rs.delete()`: executes `deleteQuery` (one round trip), whose modelled
semantics removes every row matching the condition behind the shared Query
pointer, and returns the affected-row count. -/
def deleteRS (σ : EnvState) (rc : RecordCollection) : EnvState × Int :=
  let q := getQuery σ rc.queryRef
  let t := getTable σ.db rc.mi.name
  let remaining := t.filter (fun r => !(evalCond rc.mi q.cond r))
  let num : Int := ((t.filter (fun r => evalCond rc.mi q.cond r)).length : Int)
  ({ σ with db := setTable σ.db rc.mi.name remaining, trips := σ.trips + 1 }, num)

/-- The diagnostic of `EnsureOne` (Go `tools.LogAndPanic(log, "Expected
singleton", "model", ..., "received", rSet)`). -/
def expectedSingletonMsg (rSet : RecordCollection) : String :=
  "Expected singleton : model " ++ rSet.mi.name ++ " received " ++ rSet.toStr

/-- `rc.EnsureOne()`: forces resolution through `LazyLoad`, then panics
unless exactly one identifier is present. -/
def EnsureOne (σ : EnvState) (rc : RecordCollection) :
    EnvState × Except String Unit :=
  let p := LazyLoad σ rc
  if p.2.ids.length = 1 then (p.1, Except.ok ())
  else (p.1, Except.error (expectedSingletonMsg p.2))

/-- Registry lookup (Go global `modelRegistry.get`). -/
def modelRegistryGet (registry : List ModelInfo) (modelName : String) :
    Option ModelInfo :=
  registry.find? (fun m => m.name == modelName)

/-- The diagnostic of an unknown model name (Go
`tools.LogAndPanic(log, "Unknown model", "model", modelName)`). -/
def unknownModelMsg (model : String) : String :=
  "Unknown model : model " ++ model

/-- `newRecordCollection(env, modelName)`: panics on an unknown model name;
otherwise allocates a fresh `Query` (a new store cell) and returns an
empty collection pointing at it. -/
def newRecordCollection (σ : EnvState) (registry : List ModelInfo)
    (modelName : String) : EnvState × Except String RecordCollection :=
  match modelRegistryGet registry modelName with
  | none => (σ, Except.error (unknownModelMsg modelName))
  | some mi =>
    let ref := σ.store.length
    ({ σ with store := σ.store ++ [newQuery] },
     Except.ok { mi := mi, queryRef := ref, ids := [] })

/-- Well-formedness of a model registry entry: every field is found under
its own declared name and under its own column name (no cross-collisions
between declared names and column names of different fields).  The models
of the repository satisfy this by construction of its registry. -/
def wfModel (m : ModelInfo) : Bool :=
  m.fields.all (fun fi =>
    decide (fieldByName m fi.name = some fi) &&
      decide (fieldByName m fi.json = some fi))

/-! ### Concrete fixtures (the `User` model of the repository tests),
used by witnesses and counterexamples -/

def fID : FieldInfo := { name := "ID", json := "id", stored := true, ftype := .tInt }

def fUserName : FieldInfo :=
  { name := "UserName", json := "user_name", stored := true, ftype := .tString }

def fEmail : FieldInfo :=
  { name := "Email", json := "email", stored := true, ftype := .tString }

def fNums : FieldInfo := { name := "Nums", json := "nums", stored := true, ftype := .tInt }

def fDisplayName : FieldInfo :=
  { name := "DisplayName", json := "display_name", stored := false, ftype := .tString }

def mUser : ModelInfo :=
  { name := "User", fields := [fID, fUserName, fEmail, fNums, fDisplayName] }

def theRegistry : List ModelInfo := [mUser]

def recJohn : Record :=
  { id := 1, fields := [("user_name", .strV "John Smith"),
      ("email", .strV "jsmith@example.com"), ("nums", .intV 1)] }

def recJane : Record :=
  { id := 2, fields := [("user_name", .strV "Jane Smith"),
      ("email", .strV "jane.smith@example.com"), ("nums", .intV 2)] }

def recWill : Record :=
  { id := 3, fields := [("user_name", .strV "Will Smith"),
      ("email", .strV "will.smith@example.com"), ("nums", .intV 3)] }

def tUsers : Table := [recJohn, recJane, recWill]

/-- A state right after `env.Pool("User")`: one freshly allocated query. -/
def stUsers : EnvState :=
  { store := [newQuery], db := [("User", tUsers)], cache := [], trips := 0 }

/-- The collection returned by `env.Pool("User")` in `stUsers`. -/
def rcUsers : RecordCollection := { mi := mUser, queryRef := 0, ids := [] }

/-- Same pool state over an empty `User` table. -/
def stEmptyTable : EnvState :=
  { store := [newQuery], db := [("User", [])], cache := [], trips := 0 }

/-- A state whose single query is the one `withIds [2]` leaves behind. -/
def stJane : EnvState :=
  { store := [{ newQuery with cond := NewCondition.And "ID" "in" (Value.idsV [2]) }],
    db := [("User", tUsers)], cache := [], trips := 0 }

/-- A collection resolved to the singleton `[2]` (Jane). -/
def rcJane : RecordCollection := { mi := mUser, queryRef := 0, ids := [2] }

/-- A create input (struct reference) with a zero ID field. -/
def c6DataFM : FieldMap :=
  [("id", Value.intV 0), ("UserName", Value.strV "New u"),
   ("DisplayName", Value.strV "nick")]

def c6Data : CreateData := CreateData.sptr c6DataFM

/-- A create input carrying a NON-zero identifier value. -/
def c6BadFM : FieldMap :=
  [("ID", Value.intV 5), ("UserName", Value.strV "X"),
   ("DisplayName", Value.strV "d")]

/-! ### Basic lemmas about the store and the database -/

theorem list_get?_set_self {α : Type} (l : List α) (i : Nat) (a : α)
    (h : i < l.length) : (l.set i a).get? i = some a := by
  induction l generalizing i with
  | nil => exact absurd h (Nat.not_lt_zero i)
  | cons x xs ih =>
    cases i with
    | zero => rfl
    | succ n => simpa using ih n (by simpa using h)

theorem getQuery_setQuery_self (σ : EnvState) (ref : Nat) (q : Query)
    (h : ref < σ.store.length) : getQuery (setQuery σ ref q) ref = q := by
  have := list_get?_set_self σ.store ref q h
  simp only [getQuery, setQuery]
  simp only [List.get?_eq_getElem?] at this
  simp [this]

@[simp]
theorem setQuery_db (σ : EnvState) (ref : Nat) (q : Query) :
    (setQuery σ ref q).db = σ.db := rfl

@[simp]
theorem setQuery_cache (σ : EnvState) (ref : Nat) (q : Query) :
    (setQuery σ ref q).cache = σ.cache := rfl

@[simp]
theorem setQuery_trips (σ : EnvState) (ref : Nat) (q : Query) :
    (setQuery σ ref q).trips = σ.trips := rfl

@[simp]
theorem setQuery_store_length (σ : EnvState) (ref : Nat) (q : Query) :
    (setQuery σ ref q).store.length = σ.store.length := by
  simp [setQuery]

theorem getTable_setTable_self (db : List (String × Table)) (model : String)
    (t : Table) : getTable (setTable db model t) model = t := by
  simp [getTable, setTable]

/-! ### Lemmas about `withIds` -/

theorem withIds_snd (σ : EnvState) (rc : RecordCollection) (ids : List Int) :
    (withIds σ rc ids).2 = { rc with ids := ids } := by
  unfold withIds Filter
  split <;> rfl

@[simp]
theorem withIds_db (σ : EnvState) (rc : RecordCollection) (ids : List Int) :
    (withIds σ rc ids).1.db = σ.db := by
  unfold withIds Filter
  split <;> rfl

@[simp]
theorem withIds_cache (σ : EnvState) (rc : RecordCollection) (ids : List Int) :
    (withIds σ rc ids).1.cache = σ.cache := by
  unfold withIds Filter
  split <;> rfl

@[simp]
theorem withIds_trips (σ : EnvState) (rc : RecordCollection) (ids : List Int) :
    (withIds σ rc ids).1.trips = σ.trips := by
  unfold withIds Filter
  split <;> rfl

@[simp]
theorem withIds_store_length (σ : EnvState) (rc : RecordCollection)
    (ids : List Int) : (withIds σ rc ids).1.store.length = σ.store.length := by
  unfold withIds Filter setQuery
  split <;> simp

theorem withIds_query (σ : EnvState) (rc : RecordCollection) (ids : List Int)
    (hne : ids ≠ []) (href : rc.queryRef < σ.store.length) :
    getQuery (withIds σ rc ids).1 rc.queryRef =
      { getQuery σ rc.queryRef with
        cond := NewCondition.And "ID" "in" (Value.idsV ids) } := by
  unfold withIds Filter
  have hlen : ids.length > 0 := List.length_pos.mpr hne
  simp only [hlen, if_pos]
  rw [getQuery_setQuery_self _ _ _ (by simpa using href),
      getQuery_setQuery_self _ _ _ href]

/-! ### Lemmas about `Records` and the cache loop -/

theorem recordsAux_ids (σ : EnvState) (rc : RecordCollection) (l : List Int) :
    ((recordsAux σ rc l).2).map (fun r => r.ids) = l.map (fun i => [i]) := by
  induction l generalizing σ with
  | nil => rfl
  | cons a rest ih => simp [recordsAux, withIds_snd, ih]

theorem recordsAux_heads (σ : EnvState) (rc : RecordCollection) (l : List Int) :
    ((recordsAux σ rc l).2).map (fun r => r.ids.headD 0) = l := by
  induction l generalizing σ with
  | cons a rest ih =>
    simp only [recordsAux, List.map_cons, withIds_snd]
    rw [ih]
    simp
  | nil => rfl

@[simp]
theorem recordsAux_db (σ : EnvState) (rc : RecordCollection) (l : List Int) :
    (recordsAux σ rc l).1.db = σ.db := by
  induction l generalizing σ with
  | nil => rfl
  | cons a rest ih => simp [recordsAux, ih]

@[simp]
theorem recordsAux_cache (σ : EnvState) (rc : RecordCollection) (l : List Int) :
    (recordsAux σ rc l).1.cache = σ.cache := by
  induction l generalizing σ with
  | nil => rfl
  | cons a rest ih => simp [recordsAux, ih]

@[simp]
theorem recordsAux_trips (σ : EnvState) (rc : RecordCollection) (l : List Int) :
    (recordsAux σ rc l).1.trips = σ.trips := by
  induction l generalizing σ with
  | nil => rfl
  | cons a rest ih => simp [recordsAux, ih]

@[simp]
theorem addEntries_db (σ : EnvState) (m : ModelInfo)
    (pairs : List (Int × FieldMap)) : (addEntries σ m pairs).db = σ.db := by
  induction pairs generalizing σ with
  | nil => rfl
  | cons p rest ih => simp [addEntries, ih]

@[simp]
theorem addEntries_trips (σ : EnvState) (m : ModelInfo)
    (pairs : List (Int × FieldMap)) : (addEntries σ m pairs).trips = σ.trips := by
  induction pairs generalizing σ with
  | nil => rfl
  | cons p rest ih => simp [addEntries, ih]

theorem getRecordSlate_addEntry_ne
    (c : List ((String × Int) × FieldMap)) (model : String) (id id2 : Int)
    (fm : FieldMap) (h : id2 ≠ id) :
    getRecordSlate (addEntry c model id2 fm) model id =
      getRecordSlate c model id := by
  simp [getRecordSlate, addEntry, List.find?_cons, h]

theorem getRecordSlate_addEntries_not_mem (σ : EnvState) (m : ModelInfo)
    (pairs : List (Int × FieldMap)) (id : Int)
    (h : id ∉ pairs.map (fun p => p.1)) :
    getRecordSlate (addEntries σ m pairs).cache m.name id =
      getRecordSlate σ.cache m.name id := by
  induction pairs generalizing σ with
  | nil => rfl
  | cons p rest ih =>
    simp only [List.map_cons, List.mem_cons, not_or] at h
    rw [addEntries, ih _ h.2]
    exact getRecordSlate_addEntry_ne _ _ _ _ _ (fun hp => h.1 hp.symm)

theorem getRecordSlate_addEntries_self (σ : EnvState) (m : ModelInfo)
    (pairs : List (Int × FieldMap)) (id : Int) (fm : FieldMap)
    (hmem : (id, fm) ∈ pairs) (hnd : (pairs.map (fun p => p.1)).Nodup) :
    getRecordSlate (addEntries σ m pairs).cache m.name id = some fm := by
  induction pairs generalizing σ with
  | nil => exact absurd hmem (List.not_mem_nil _)
  | cons p rest ih =>
    simp only [List.map_cons, List.nodup_cons] at hnd
    rcases List.mem_cons.mp hmem with hp | hp
    · subst hp
      rw [addEntries, getRecordSlate_addEntries_not_mem _ _ _ _ hnd.1]
      simp [getRecordSlate, addEntry, List.find?]
    · exact ih _ hp hnd.2

/-! ### Lemmas about `Filter` and `Read` -/

@[simp]
theorem Filter_snd (σ : EnvState) (rs : RecordCollection) (f op : String)
    (v : Value) : (Filter σ rs f op v).2 = rs := rfl

theorem Filter_query (σ : EnvState) (rs : RecordCollection) (f op : String)
    (v : Value) (h : rs.queryRef < σ.store.length) :
    getQuery (Filter σ rs f op v).1 rs.queryRef =
      { getQuery σ rs.queryRef with
        cond := (getQuery σ rs.queryRef).cond.And f op v } := by
  simp only [Filter]
  exact getQuery_setQuery_self _ _ _ h

@[simp]
theorem Filter_db (σ : EnvState) (rs : RecordCollection) (f op : String)
    (v : Value) : (Filter σ rs f op v).1.db = σ.db := rfl

theorem Read_snd (σ : EnvState) (rc : RecordCollection) (fs : List String) :
    (Read σ rc fs).2 =
      { rc with ids := (selectRows σ rc.mi rc.queryRef).map (fun r => r.id) } := by
  simp only [Read]
  rw [withIds_snd]

theorem Read_trips (σ : EnvState) (rc : RecordCollection) (fs : List String) :
    (Read σ rc fs).1.trips = σ.trips + 1 := by
  simp only [Read, Records]
  rw [addEntries_trips, recordsAux_trips, withIds_trips]

theorem Read_db (σ : EnvState) (rc : RecordCollection) (fs : List String) :
    (Read σ rc fs).1.db = σ.db := by
  simp only [Read, Records]
  rw [addEntries_db, recordsAux_db, withIds_db]

theorem Read_slate (σ : EnvState) (rc : RecordCollection) (fs : List String)
    (hnd : ((selectRows σ rc.mi rc.queryRef).map (fun r => r.id)).Nodup)
    (r : Record) (hr : r ∈ selectRows σ rc.mi rc.queryRef) :
    getRecordSlate (Read σ rc fs).1.cache rc.mi.name r.id =
      some (rowFieldMap rc.mi
        (filterOnDBFields rc.mi
          (if fs.isEmpty then nonRelatedFieldJSONNames rc.mi else fs)) r) := by
  simp only [Read, Records]
  rw [withIds_snd]
  dsimp only
  rw [recordsAux_heads, List.zip_map']
  exact getRecordSlate_addEntries_self _ _ _ _ _
    (List.mem_map_of_mem _ hr)
    (by simpa [List.map_map, Function.comp] using hnd)

/-! ### Evaluation lemmas for the conditions the claims exercise -/

theorem recGet_ID (m : ModelInfo) (r : Record) :
    recGet m r "ID" = Value.intV r.id := rfl

theorem evalOp_eq_val (a b : Value) : evalOp "=" a b = (a == b) := rfl

theorem evalOp_in_ids (n : Int) (l : List Int) :
    evalOp "in" (Value.intV n) (Value.idsV l) = l.contains n := rfl

theorem evalCond_and_id_eq (m : ModelInfo) (c : Condition) (r : Record) (a : Int) :
    evalCond m (c.And "ID" "=" (Value.intV a)) r =
      (evalCond m c r && decide (r.id = a)) := by
  show (evalCond m c r && evalOp "=" (recGet m r "ID") (Value.intV a)) = _
  rw [recGet_ID, evalOp_eq_val]
  congr 1
  by_cases h : r.id = a
  · subst h; simp
  · simp [h]

theorem evalCond_id_in (m : ModelInfo) (r : Record) (ids : List Int) :
    evalCond m (NewCondition.And "ID" "in" (Value.idsV ids)) r =
      decide (r.id ∈ ids) := by
  show (evalCond m Condition.empty r &&
      evalOp "in" (recGet m r "ID") (Value.idsV ids)) = _
  rw [recGet_ID, evalOp_in_ids]
  by_cases h : r.id ∈ ids
  · simp [evalCond, h, List.elem_iff.mpr h]
  · have : ids.contains r.id = false := by
      rcases hc : ids.contains r.id with _ | _
      · rfl
      · exact absurd (List.elem_iff.mp hc) h
    simp [evalCond, h, this]

/-! ### Claim theorems -/

/-- C10: `withIds(ids)` with non-empty `ids` replaces the entire query
condition of the result with exactly the single clause `("ID","in",ids)`,
discarding any previously accumulated condition, and binds the identifier
list; with empty `ids` it leaves the state (hence the query condition)
untouched and only empties the identifier list of the struct copy. -/
theorem withIds_overrides_condition (σ : EnvState) (rc : RecordCollection)
    (ids : List Int) :
    (ids ≠ [] → rc.queryRef < σ.store.length →
      (withIds σ rc ids).2.ids = ids ∧
      getQuery (withIds σ rc ids).1 (withIds σ rc ids).2.queryRef =
        { getQuery σ rc.queryRef with
          cond := NewCondition.And "ID" "in" (Value.idsV ids) }) ∧
    (ids = [] → withIds σ rc ids = (σ, { rc with ids := [] })) := by
  constructor
  · intro hne href
    refine ⟨by rw [withIds_snd], ?_⟩
    have hq : (withIds σ rc ids).2.queryRef = rc.queryRef := by
      rw [withIds_snd]
    rw [hq, withIds_query σ rc ids hne href]
  · intro h
    subst h
    simp [withIds]

/-- Witness for C10 at the concrete `User` fixtures. -/
theorem withIds_overrides_condition_witness :
    ((withIds stUsers rcUsers [7, 8]).2.ids = [7, 8] ∧
      getQuery (withIds stUsers rcUsers [7, 8]).1
          (withIds stUsers rcUsers [7, 8]).2.queryRef =
        { getQuery stUsers rcUsers.queryRef with
          cond := NewCondition.And "ID" "in" (Value.idsV [7, 8]) }) ∧
    withIds stUsers rcUsers [] = (stUsers, { rcUsers with ids := [] }) :=
  ⟨(withIds_overrides_condition stUsers rcUsers [7, 8]).1 (by decide) (by decide),
   (withIds_overrides_condition stUsers rcUsers []).2 rfl⟩

/-- C2: the claim asserts that `a := col.Filter(...)` leaves the Query shape
observed through `col` unchanged and that later mutations of the shape of
`a` are invisible through `col`.  The source shares one `*Query` between
`col` and `a`, so both the Filter clause and a later `Limit` applied to
`a` are observable through `col`: evaluated here at the concrete pool
state, refuting the claim (the spec states the intended behaviour; the
repository tests also rely on it, so the code is the defect). -/
theorem chain_mutation_observable_through_receiver :
    getQuery
        (LimitRS (Filter stUsers rcUsers "UserName" "=" (Value.strV "x")).1
          (Filter stUsers rcUsers "UserName" "=" (Value.strV "x")).2 5).1
        rcUsers.queryRef ≠
      getQuery stUsers rcUsers.queryRef ∧
    (getQuery
        (LimitRS (Filter stUsers rcUsers "UserName" "=" (Value.strV "x")).1
          (Filter stUsers rcUsers "UserName" "=" (Value.strV "x")).2 5).1
        rcUsers.queryRef).limit = 5 ∧
    (getQuery
        (LimitRS (Filter stUsers rcUsers "UserName" "=" (Value.strV "x")).1
          (Filter stUsers rcUsers "UserName" "=" (Value.strV "x")).2 5).1
        rcUsers.queryRef).cond =
      NewCondition.And "UserName" "=" (Value.strV "x") := by
  refine ⟨?_, rfl, rfl⟩
  decide

/-- C1: `update` (public surface `Write`) runs its UPDATE against the
condition behind the Query pointer of the collection.  After `Filter(id = a)`
every row whose identifier differs from `a` is untouched; after `withIds`
(a resolved collection) the condition is exactly the identifier-membership
clause, so every row whose identifier is outside the resolved set is
untouched.  Rows are compared position by position. -/
theorem update_frame (σ : EnvState) (rc : RecordCollection) (fm : FieldMap)
    (href : rc.queryRef < σ.store.length) :
    (∀ (a : Int) (i : Nat) (hi : i < (getTable σ.db rc.mi.name).length),
      ((getTable σ.db rc.mi.name).get ⟨i, hi⟩).id ≠ a →
      (getTable
          (update (Filter σ rc "ID" "=" (Value.intV a)).1
            (Filter σ rc "ID" "=" (Value.intV a)).2 fm).1.db
          rc.mi.name)[i]? =
        some ((getTable σ.db rc.mi.name).get ⟨i, hi⟩)) ∧
    (∀ (ids : List Int), ids ≠ [] →
      ∀ (i : Nat) (hi : i < (getTable σ.db rc.mi.name).length),
      ((getTable σ.db rc.mi.name).get ⟨i, hi⟩).id ∉ ids →
      (getTable
          (update (withIds σ rc ids).1 (withIds σ rc ids).2 fm).1.db
          rc.mi.name)[i]? =
        some ((getTable σ.db rc.mi.name).get ⟨i, hi⟩)) := by
  constructor
  · intro a i hi hne
    rw [List.get_eq_getElem] at hne
    simp only [update, Filter_snd, Filter_db]
    rw [getTable_setTable_self, Filter_query σ rc "ID" "=" (Value.intV a) href]
    dsimp only
    rw [List.getElem?_map]
    rw [show (getTable σ.db rc.mi.name)[i]? =
        some ((getTable σ.db rc.mi.name).get ⟨i, hi⟩) by
      simp [List.getElem?_eq_getElem hi, List.get_eq_getElem]]
    rw [Option.map_some']
    rw [evalCond_and_id_eq]
    simp [hne]
  · intro ids hne i hi hmem
    rw [List.get_eq_getElem] at hmem
    have hq2 : (withIds σ rc ids).2.queryRef = rc.queryRef := by rw [withIds_snd]
    have hm2 : (withIds σ rc ids).2.mi = rc.mi := by rw [withIds_snd]
    simp only [update, hq2, hm2, withIds_db]
    rw [getTable_setTable_self, withIds_query σ rc ids hne href]
    dsimp only
    rw [List.getElem?_map]
    rw [show (getTable σ.db rc.mi.name)[i]? =
        some ((getTable σ.db rc.mi.name).get ⟨i, hi⟩) by
      simp [List.getElem?_eq_getElem hi, List.get_eq_getElem]]
    rw [Option.map_some']
    rw [evalCond_id_in]
    simp [hmem]

/-- Witness for C1: in the three-user table, updating `Filter(id = 1)`
leaves rows 2 and 3 (indices 1 and 2) unchanged, and updating a collection
resolved to `[1]` leaves row 2 unchanged. -/
theorem update_frame_witness :
    (getTable
        (update (Filter stUsers rcUsers "ID" "=" (Value.intV 1)).1
          (Filter stUsers rcUsers "ID" "=" (Value.intV 1)).2
          [("Nums", Value.intV 9)]).1.db
        rcUsers.mi.name)[1]? =
      some ((getTable stUsers.db rcUsers.mi.name).get ⟨1, by decide⟩) ∧
    (getTable
        (update (withIds stUsers rcUsers [1]).1 (withIds stUsers rcUsers [1]).2
          [("Nums", Value.intV 9)]).1.db
        rcUsers.mi.name)[1]? =
      some ((getTable stUsers.db rcUsers.mi.name).get ⟨1, by decide⟩) :=
  ⟨(update_frame stUsers rcUsers [("Nums", Value.intV 9)] (by decide)).1 1 1
      (by decide) (by decide),
   (update_frame stUsers rcUsers [("Nums", Value.intV 9)] (by decide)).2 [1]
      (by decide) 1 (by decide) (by decide)⟩

theorem length_filter_partition {α : Type} (p : α → Bool) (l : List α) :
    (l.filter p).length + (l.filter (fun x => !(p x))).length = l.length := by
  induction l with
  | nil => rfl
  | cons a rest ih =>
    by_cases h : p a <;> simp [List.filter_cons, h, ← ih] <;> omega

/-- C9: on a resolved collection (`withIds ids`), `delete` (public surface
`Unlink`) removes exactly the rows whose identifier is in the resolved
set and returns the affected-row count, which equals the number of rows
that disappeared from the table. -/
theorem delete_scoped_and_counted (σ : EnvState) (rc : RecordCollection)
    (ids : List Int) (hne : ids ≠ []) (href : rc.queryRef < σ.store.length) :
    (deleteRS (withIds σ rc ids).1 (withIds σ rc ids).2).2 =
      (((getTable σ.db rc.mi.name).filter
          (fun r => decide (r.id ∈ ids))).length : Int) ∧
    getTable (deleteRS (withIds σ rc ids).1 (withIds σ rc ids).2).1.db
        rc.mi.name =
      (getTable σ.db rc.mi.name).filter (fun r => !(decide (r.id ∈ ids))) ∧
    (deleteRS (withIds σ rc ids).1 (withIds σ rc ids).2).2 =
      ((getTable σ.db rc.mi.name).length : Int) -
        ((getTable (deleteRS (withIds σ rc ids).1 (withIds σ rc ids).2).1.db
            rc.mi.name).length : Int) := by
  have hq2 : (withIds σ rc ids).2.queryRef = rc.queryRef := by rw [withIds_snd]
  have hm2 : (withIds σ rc ids).2.mi = rc.mi := by rw [withIds_snd]
  have hqq := withIds_query σ rc ids hne href
  have hfeq : (getTable σ.db rc.mi.name).filter
        (fun r => evalCond rc.mi (NewCondition.And "ID" "in" (Value.idsV ids)) r) =
      (getTable σ.db rc.mi.name).filter (fun r => decide (r.id ∈ ids)) :=
    List.filter_congr (fun r _ => evalCond_id_in rc.mi r ids)
  have c1 : (deleteRS (withIds σ rc ids).1 (withIds σ rc ids).2).2 =
      (((getTable σ.db rc.mi.name).filter
          (fun r => decide (r.id ∈ ids))).length : Int) := by
    simp only [deleteRS, hq2, hm2, withIds_db]
    rw [hqq]
    dsimp only
    rw [hfeq]
  have c2 : getTable (deleteRS (withIds σ rc ids).1 (withIds σ rc ids).2).1.db
      rc.mi.name =
      (getTable σ.db rc.mi.name).filter (fun r => !(decide (r.id ∈ ids))) := by
    simp only [deleteRS, hq2, hm2, withIds_db]
    rw [hqq]
    dsimp only
    rw [getTable_setTable_self]
    apply List.filter_congr
    intro r _
    rw [evalCond_id_in]
  refine ⟨c1, c2, ?_⟩
  rw [c1, c2]
  have := length_filter_partition (fun r => decide (r.id ∈ ids))
    (getTable σ.db rc.mi.name)
  omega

/-- Witness for C9: deleting the collection resolved to `[1]` in the
three-user table removes exactly the first row and reports one deleted
row. -/
theorem delete_scoped_and_counted_witness :
    (deleteRS (withIds stUsers rcUsers [1]).1 (withIds stUsers rcUsers [1]).2).2 =
      (((getTable stUsers.db rcUsers.mi.name).filter
          (fun r => decide (r.id ∈ [1]))).length : Int) ∧
    getTable (deleteRS (withIds stUsers rcUsers [1]).1
        (withIds stUsers rcUsers [1]).2).1.db rcUsers.mi.name =
      (getTable stUsers.db rcUsers.mi.name).filter
        (fun r => !(decide (r.id ∈ [1]))) ∧
    (deleteRS (withIds stUsers rcUsers [1]).1 (withIds stUsers rcUsers [1]).2).2 =
      ((getTable stUsers.db rcUsers.mi.name).length : Int) -
        ((getTable (deleteRS (withIds stUsers rcUsers [1]).1
            (withIds stUsers rcUsers [1]).2).1.db rcUsers.mi.name).length : Int) :=
  delete_scoped_and_counted stUsers rcUsers [1] (by decide) (by decide)

/-- C3 counterexample: a collection RESOLVED TO EMPTY identifiers (here the
result of resolving over an empty table) is re-queried by every further
`LazyLoad` call — two calls on the resolved collection perform two more
round trips, not zero, so the total for the claimed scenario is not one. -/
theorem lazyload_requeries_on_resolved_empty :
    (LazyLoad stEmptyTable rcUsers).2.ids = [] ∧
    (LazyLoad stEmptyTable rcUsers).1.trips = 1 ∧
    (LazyLoad (LazyLoad stEmptyTable rcUsers).1
        (LazyLoad stEmptyTable rcUsers).2).1.trips = 2 ∧
    (LazyLoad
        (LazyLoad (LazyLoad stEmptyTable rcUsers).1
          (LazyLoad stEmptyTable rcUsers).2).1
        (LazyLoad (LazyLoad stEmptyTable rcUsers).1
          (LazyLoad stEmptyTable rcUsers).2).2).1.trips = 3 := by
  decide

/-- C3 amended: `LazyLoad` is idempotent for every collection with a
NON-EMPTY identifier list (it returns the collection unchanged without
querying), so two `LazyLoad` calls starting from an unresolved collection
take exactly one round trip in total provided resolution yields at least
one identifier; a collection with empty identifiers is indistinguishable
from an unresolved one and is re-queried, and `ForceLazyLoad` always
queries. -/
theorem lazyload_idempotent_when_nonempty (σ : EnvState)
    (rs : RecordCollection) :
    (rs.ids ≠ [] → LazyLoad σ rs = (σ, rs)) ∧
    (rs.ids = [] → selectRows σ rs.mi rs.queryRef ≠ [] →
      (LazyLoad (LazyLoad σ rs).1 (LazyLoad σ rs).2).1.trips = σ.trips + 1) ∧
    (ForceLazyLoad σ rs).1.trips = σ.trips + 1 := by
  refine ⟨?_, ?_, Read_trips σ rs ["id"]⟩
  · intro h
    have hlen : ¬(rs.ids.length = 0) := fun hc => h (List.length_eq_zero.mp hc)
    simp [LazyLoad, hlen]
  · intro h hrows
    have h0 : rs.ids.length = 0 := by rw [h]; rfl
    simp only [LazyLoad, h0, if_pos]
    have hids : (ForceLazyLoad σ rs).2.ids =
        (selectRows σ rs.mi rs.queryRef).map (fun r => r.id) := by
      unfold ForceLazyLoad
      rw [Read_snd]
    have hlen : ¬((ForceLazyLoad σ rs).2.ids.length = 0) := by
      rw [hids]
      simp only [List.length_map]
      exact fun hc => hrows (List.length_eq_zero.mp hc)
    simp only [hlen, if_neg]
    exact Read_trips σ rs ["id"]

/-- Witness for C3 (amended): a resolved non-empty collection is returned
unchanged; over the three-user table, two chained `LazyLoad` calls from
the unresolved pool collection make exactly one round trip. -/
theorem lazyload_idempotent_when_nonempty_witness :
    LazyLoad stUsers { mi := mUser, queryRef := 0, ids := [1] } =
      (stUsers, { mi := mUser, queryRef := 0, ids := [1] }) ∧
    (LazyLoad (LazyLoad stUsers rcUsers).1 (LazyLoad stUsers rcUsers).2).1.trips =
      stUsers.trips + 1 ∧
    (ForceLazyLoad stUsers rcUsers).1.trips = stUsers.trips + 1 :=
  ⟨(lazyload_idempotent_when_nonempty stUsers
      { mi := mUser, queryRef := 0, ids := [1] }).1 (by decide),
   (lazyload_idempotent_when_nonempty stUsers rcUsers).2.1 rfl (by decide),
   (lazyload_idempotent_when_nonempty stUsers rcUsers).2.2⟩

/-- C7: `EnsureOne` first forces resolution (`LazyLoad`, querying when the
identifier list is empty) and returns normally exactly when the RESOLVED
collection has one identifier; otherwise it aborts with the diagnostic
naming the model and the received collection. -/
theorem ensureOne_guard (σ : EnvState) (rc : RecordCollection) :
    ((EnsureOne σ rc).2 = Except.ok () ↔ (LazyLoad σ rc).2.ids.length = 1) ∧
    (EnsureOne σ rc).1 = (LazyLoad σ rc).1 ∧
    (rc.ids = [] →
      ((EnsureOne σ rc).2 = Except.ok () ↔
        (selectRows σ rc.mi rc.queryRef).length = 1)) ∧
    ((LazyLoad σ rc).2.ids.length ≠ 1 →
      (EnsureOne σ rc).2 =
        Except.error (expectedSingletonMsg (LazyLoad σ rc).2)) := by
  have h1 : (EnsureOne σ rc).2 = Except.ok () ↔
      (LazyLoad σ rc).2.ids.length = 1 := by
    by_cases h : (LazyLoad σ rc).2.ids.length = 1 <;> simp [EnsureOne, h]
  have h2 : (EnsureOne σ rc).1 = (LazyLoad σ rc).1 := by
    by_cases h : (LazyLoad σ rc).2.ids.length = 1 <;> simp [EnsureOne, h]
  refine ⟨h1, h2, ?_, ?_⟩
  · intro h0
    rw [h1]
    have h0' : rc.ids.length = 0 := by rw [h0]; rfl
    have hres : (LazyLoad σ rc).2 = (ForceLazyLoad σ rc).2 := by
      simp [LazyLoad, h0']
    rw [hres]
    unfold ForceLazyLoad
    rw [Read_snd]
    simp
  · intro h
    simp [EnsureOne, h]

/-- Witness for C7: over the three-user table, `EnsureOne` on the fresh
pool collection resolves to three identifiers and aborts with the
expected-singleton diagnostic. -/
theorem ensureOne_guard_witness :
    ((EnsureOne stUsers rcUsers).2 = Except.ok () ↔
      (selectRows stUsers rcUsers.mi rcUsers.queryRef).length = 1) ∧
    (EnsureOne stUsers rcUsers).2 =
      Except.error (expectedSingletonMsg (LazyLoad stUsers rcUsers).2) :=
  ⟨(ensureOne_guard stUsers rcUsers).2.2.1 rfl,
   (ensureOne_guard stUsers rcUsers).2.2.2 (by decide)⟩

/-- C8: obtaining a collection for an unknown model name aborts with the
diagnostic naming the model, without returning a collection or mutating
the state; `Get` with an unknown field name on an empty collection aborts
with the diagnostic naming the model and the field, without returning a
value or mutating the state. -/
theorem unknown_model_unknown_field_abort :
    (∀ (σ : EnvState) (reg : List ModelInfo) (name : String),
      modelRegistryGet reg name = none →
      newRecordCollection σ reg name =
        (σ, Except.error (unknownModelMsg name))) ∧
    (∀ (σ : EnvState) (rc : RecordCollection) (f : String),
      rc.ids = [] → fieldByName rc.mi f = none →
      Get σ rc f = (σ, Except.error (unknownFieldMsg rc.mi.name f))) := by
  constructor
  · intro σ reg name h
    simp [newRecordCollection, h]
  · intro σ rc f h hf
    have hempty : rc.IsEmpty = true := by
      simp [RecordCollection.IsEmpty, h]
    simp [Get, hempty, hf]

/-- Witness for C8: an unknown model name and an unknown field name on an
empty collection, at the concrete registry. -/
theorem unknown_model_unknown_field_abort_witness :
    newRecordCollection stUsers theRegistry "Partner" =
      (stUsers, Except.error (unknownModelMsg "Partner")) ∧
    Get stUsers rcUsers "Bogus" =
      (stUsers, Except.error (unknownFieldMsg rcUsers.mi.name "Bogus")) :=
  ⟨unknown_model_unknown_field_abort.1 stUsers theRegistry "Partner" (by decide),
   unknown_model_unknown_field_abort.2 stUsers rcUsers "Bogus" rfl (by decide)⟩

/-! ### Field-map deletion lemmas for `create` -/

theorem fmapGet_fmapDelete_self (fm : FieldMap) (k : String) :
    fmapGet (fmapDelete fm k) k = none := by
  unfold fmapGet fmapDelete
  rw [Option.map_eq_none', List.find?_eq_none]
  intro x hx
  have hk := (List.mem_filter.mp hx).2
  simp only [bne_iff_ne, ne_eq] at hk
  simp [hk]

theorem fmapGet_fmapDelete_none (fm : FieldMap) (k k2 : String)
    (h : fmapGet fm k = none) : fmapGet (fmapDelete fm k2) k = none := by
  have h2 : ∀ x ∈ fm, ¬(x.1 == k) := by
    unfold fmapGet at h
    rw [Option.map_eq_none', List.find?_eq_none] at h
    exact h
  unfold fmapGet fmapDelete
  rw [Option.map_eq_none', List.find?_eq_none]
  intro x hx
  exact h2 x (List.mem_filter.mp hx).1

theorem fmapGet_fmapDelete_ne (fm : FieldMap) (k k2 : String) (hne : k ≠ k2) :
    fmapGet (fmapDelete fm k2) k = fmapGet fm k := by
  induction fm with
  | nil => rfl
  | cons kv rest ih =>
    by_cases h2 : kv.1 = k2
    · have hk : (kv.1 == k) = false := by
        have h3 : ¬(k2 = k) := fun hc => hne hc.symm
        simp [h2, h3]
      simp only [fmapDelete, List.filter_cons, h2] at ih ⊢
      simp only [bne_self_eq_false]
      rw [show fmapGet (kv :: rest) k =
          fmapGet rest k by simp [fmapGet, List.find?_cons, hk]]
      exact ih
    · simp only [fmapDelete, List.filter_cons, bne_iff_ne, ne_eq, h2,
        not_false_eq_true, if_pos]
      by_cases hk : kv.1 = k
      · simp [fmapGet, List.find?_cons, hk]
      · rw [show fmapGet (kv :: rest) k = fmapGet rest k by
            simp [fmapGet, List.find?_cons, hk],
          show fmapGet (kv :: List.filter (fun kv => kv.1 != k2) rest) k =
            fmapGet (List.filter (fun kv => kv.1 != k2) rest) k by
            simp [fmapGet, List.find?_cons, hk]]
        exact ih

theorem stripZeroId_strips (fm : FieldMap) (k : String)
    (h : fmapGet fm k = some (Value.intV 0)) :
    fmapGet (stripZeroId fm k) k = none := by
  unfold stripZeroId
  rw [h]
  simpa using fmapGet_fmapDelete_self fm k

theorem stripZeroId_none (fm : FieldMap) (k k2 : String)
    (h : fmapGet fm k = none) : fmapGet (stripZeroId fm k2) k = none := by
  unfold stripZeroId
  split
  · exact fmapGet_fmapDelete_none _ _ _ h
  · exact h

theorem stripZeroId_ne (fm : FieldMap) (k k2 : String) (hne : k ≠ k2) :
    fmapGet (stripZeroId fm k2) k = fmapGet fm k := by
  unfold stripZeroId
  split
  · exact fmapGet_fmapDelete_ne _ _ _ hne
  · rfl

theorem cleanFold_none (l : List FieldInfo) (fm : FieldMap) (k : String)
    (h : fmapGet fm k = none) :
    fmapGet
      (l.foldl
        (fun acc cf =>
          if !cf.stored then fmapDelete (fmapDelete acc cf.name) cf.json else acc)
        fm) k = none := by
  induction l generalizing fm with
  | nil => exact h
  | cons cf rest ih =>
    simp only [List.foldl_cons]
    apply ih
    cases hs : cf.stored
    · simp only [hs, Bool.not_false, if_pos]
      exact fmapGet_fmapDelete_none _ _ _ (fmapGet_fmapDelete_none _ _ _ h)
    · simpa [hs] using h

theorem cleanFold_member (l : List FieldInfo) (fm : FieldMap) (cf : FieldInfo)
    (hmem : cf ∈ l) (hst : cf.stored = false) :
    fmapGet
        (l.foldl
          (fun acc cf =>
            if !cf.stored then fmapDelete (fmapDelete acc cf.name) cf.json else acc)
          fm) cf.name = none ∧
    fmapGet
        (l.foldl
          (fun acc cf =>
            if !cf.stored then fmapDelete (fmapDelete acc cf.name) cf.json else acc)
          fm) cf.json = none := by
  induction l generalizing fm with
  | nil => exact absurd hmem (List.not_mem_nil _)
  | cons g rest ih =>
    rcases List.mem_cons.mp hmem with hg | hg
    · subst hg
      simp only [List.foldl_cons, hst, Bool.not_false, if_pos]
      constructor
      · exact cleanFold_none _ _ _
          (fmapGet_fmapDelete_none _ _ _ (fmapGet_fmapDelete_self _ _))
      · exact cleanFold_none _ _ _ (fmapGet_fmapDelete_self _ _)
    · simp only [List.foldl_cons]
      exact ih _ hg

/-- C6 counterexample: an input field map carrying the identifier with a
NON-zero value is handed to `insertQuery` with the identifier still in it:
`create` deletes the `ID` key only when its value is zero, so the claim
that the identifier field is always stripped before the INSERT is false. -/
theorem create_keeps_nonzero_identifier :
    fmapGet (cleanCreateFMap mUser c6BadFM) "ID" = some (Value.intV 5) := by
  decide

/-- C6 amended: `create` strips the identifier keys only when present with
value zero, always strips every non-stored field (by declared and column
name), executes the INSERT (one round trip, appending a row under the
database-generated identifier), returns a resolved singleton bound to that
generated identifier, and writes the identifier back into a struct
input. -/
theorem create_strips_and_returns_generated_id (σ : EnvState)
    (rc : RecordCollection) (data : CreateData) :
    (∀ cf ∈ rc.mi.fields, cf.stored = false →
      fmapGet (cleanCreateFMap rc.mi data.fieldMap) cf.name = none ∧
      fmapGet (cleanCreateFMap rc.mi data.fieldMap) cf.json = none) ∧
    (fmapGet data.fieldMap "id" = some (Value.intV 0) →
      fmapGet (cleanCreateFMap rc.mi data.fieldMap) "id" = none) ∧
    (fmapGet data.fieldMap "ID" = some (Value.intV 0) →
      fmapGet (cleanCreateFMap rc.mi data.fieldMap) "ID" = none) ∧
    (create σ rc data).2.1.ids = [nextId (getTable σ.db rc.mi.name)] ∧
    (getTable (create σ rc data).1.db rc.mi.name).map (fun r => r.id) =
      (getTable σ.db rc.mi.name).map (fun r => r.id) ++
        [nextId (getTable σ.db rc.mi.name)] ∧
    (∀ fm, data = CreateData.sptr fm →
      (create σ rc data).2.2 =
        CreateData.sptr (fmapSet fm "ID"
          (Value.intV (nextId (getTable σ.db rc.mi.name))))) ∧
    (create σ rc data).1.trips = σ.trips + 1 := by
  refine ⟨?_, ?_, ?_, ?_, ?_, ?_, ?_⟩
  · intro cf hmem hst
    exact cleanFold_member _ _ _ hmem hst
  · intro h
    unfold cleanCreateFMap
    exact cleanFold_none _ _ _ (stripZeroId_none _ _ _ (stripZeroId_strips _ _ h))
  · intro h
    unfold cleanCreateFMap
    refine cleanFold_none _ _ _ (stripZeroId_strips _ _ ?_)
    rw [stripZeroId_ne _ _ _ (by decide)]
    exact h
  · simp only [create]
    rw [withIds_snd]
    rw [show (insertRow rc.mi (getTable σ.db rc.mi.name)
        (cleanCreateFMap rc.mi data.fieldMap)).2 =
      nextId (getTable σ.db rc.mi.name) from rfl]
  · simp only [create, withIds_db]
    rw [getTable_setTable_self]
    simp [insertRow]
  · intro fm hdata
    subst hdata
    simp only [create]
    rw [show (insertRow rc.mi (getTable σ.db rc.mi.name)
        (cleanCreateFMap rc.mi (CreateData.sptr fm).fieldMap)).2 =
      nextId (getTable σ.db rc.mi.name) from rfl]
  · simp only [create, withIds_trips]

/-- Witness for C6 (amended) at a struct input with a zero identifier. -/
theorem create_strips_and_returns_generated_id_witness :
    (fmapGet (cleanCreateFMap rcUsers.mi c6Data.fieldMap) fDisplayName.name = none ∧
      fmapGet (cleanCreateFMap rcUsers.mi c6Data.fieldMap) fDisplayName.json = none) ∧
    fmapGet (cleanCreateFMap rcUsers.mi c6Data.fieldMap) "id" = none ∧
    (create stUsers rcUsers c6Data).2.1.ids =
      [nextId (getTable stUsers.db rcUsers.mi.name)] ∧
    (create stUsers rcUsers c6Data).2.2 =
      CreateData.sptr (fmapSet c6DataFM "ID"
        (Value.intV (nextId (getTable stUsers.db rcUsers.mi.name)))) :=
  ⟨(create_strips_and_returns_generated_id stUsers rcUsers c6Data).1
      fDisplayName (by decide) rfl,
   (create_strips_and_returns_generated_id stUsers rcUsers c6Data).2.1 (by decide),
   (create_strips_and_returns_generated_id stUsers rcUsers c6Data).2.2.2.1,
   (create_strips_and_returns_generated_id stUsers rcUsers c6Data).2.2.2.2.2.1
      c6DataFM rfl⟩

/-! ### Lemmas for `Records`, `Read` and `Get` -/

theorem Records_ids (σ : EnvState) (rc : RecordCollection) :
    (Records σ rc).2.map (fun r => r.ids) = rc.ids.map (fun i => [i]) :=
  recordsAux_ids σ rc rc.ids

/-- C5: `Read(fields...)` performs one round trip, returns a collection
bound to exactly the identifiers of the fetched rows in fetch order,
writes the full per-record field slate (identifier plus every requested
column) into the cache for each fetched record, and `Records()` then
materializes one singleton collection per identifier preserving that
order. -/
theorem read_binds_fetched_ids (σ : EnvState) (rc : RecordCollection)
    (fs : List String) :
    ((Read σ rc fs).2.ids =
      (selectRows σ rc.mi rc.queryRef).map (fun r => r.id)) ∧
    ((Read σ rc fs).1.trips = σ.trips + 1) ∧
    (((selectRows σ rc.mi rc.queryRef).map (fun r => r.id)).Nodup →
      ∀ r ∈ selectRows σ rc.mi rc.queryRef,
        getRecordSlate (Read σ rc fs).1.cache rc.mi.name r.id =
          some (rowFieldMap rc.mi (filterOnDBFields rc.mi
            (if fs.isEmpty then nonRelatedFieldJSONNames rc.mi else fs)) r)) ∧
    ((Records (Read σ rc fs).1 (Read σ rc fs).2).2.map (fun r => r.ids) =
      (Read σ rc fs).2.ids.map (fun i => [i])) := by
  refine ⟨?_, Read_trips σ rc fs, ?_, Records_ids _ _⟩
  · rw [Read_snd]
  · intro hnd r hr
    exact Read_slate σ rc fs hnd r hr

/-- Witness for C5: reading the whole three-user table binds `[1, 2, 3]`
and caches the full slate of the Jane row. -/
theorem read_binds_fetched_ids_witness :
    ((Read stUsers rcUsers []).2.ids =
      (selectRows stUsers rcUsers.mi rcUsers.queryRef).map (fun r => r.id)) ∧
    getRecordSlate (Read stUsers rcUsers []).1.cache rcUsers.mi.name recJane.id =
      some (rowFieldMap rcUsers.mi (filterOnDBFields rcUsers.mi
        (if ([] : List String).isEmpty then nonRelatedFieldJSONNames rcUsers.mi
          else ([] : List String))) recJane) :=
  ⟨(read_binds_fetched_ids stUsers rcUsers []).1,
   (read_binds_fetched_ids stUsers rcUsers []).2.2.1 (by decide) recJane (by decide)⟩

theorem wfModel_spec (m : ModelInfo) (hwf : wfModel m = true) :
    ∀ fi ∈ m.fields,
      fieldByName m fi.name = some fi ∧ fieldByName m fi.json = some fi := by
  intro fi hfi
  have h := List.all_eq_true.mp hwf fi hfi
  simp only [Bool.and_eq_true, decide_eq_true_eq] at h
  exact h

theorem filterMap_all_some {α : Type} (f : α → Option α) (l : List α)
    (h : ∀ x ∈ l, f x = some x) : l.filterMap f = l := by
  induction l with
  | nil => rfl
  | cons a rest ih =>
    rw [List.filterMap_cons, h a (List.mem_cons_self a rest),
      ih (fun x hx => h x (List.mem_cons_of_mem a hx))]

theorem filterOnDBFields_all (m : ModelInfo) (hwf : wfModel m = true) :
    filterOnDBFields m (nonRelatedFieldJSONNames m) =
      (m.fields.filter (fun g => g.stored)).map (fun g => g.json) := by
  unfold filterOnDBFields nonRelatedFieldJSONNames
  rw [List.filterMap_map]
  have hfm : List.filterMap (fieldByName m ∘ fun fi => fi.json) m.fields =
      m.fields :=
    filterMap_all_some _ _ (fun x hx => (wfModel_spec m hwf x hx).2)
  rw [hfm]

theorem fmapGet_cons_ne (key : String) (v : Value) (rest : FieldMap)
    (k : String) (h : ¬(key = k)) :
    fmapGet ((key, v) :: rest) k = fmapGet rest k := by
  simp [fmapGet, List.find?_cons, h]

theorem fmapGet_keyMap (g : String → Value) (l : List String) (k : String) :
    fmapGet (l.map (fun c => (c, g c))) k =
      if k ∈ l then some (g k) else none := by
  induction l with
  | nil => simp [fmapGet]
  | cons c rest ih =>
    by_cases h : c = k
    · subst h
      simp [fmapGet, List.find?_cons]
    · rw [List.map_cons, fmapGet_cons_ne _ _ _ _ h, ih]
      have hmem : (k ∈ c :: rest) ↔ (k ∈ rest) := by
        simp only [List.mem_cons, or_iff_right_iff_imp]
        intro hc
        exact absurd hc.symm h
      by_cases hm : k ∈ rest
      · rw [if_pos hm, if_pos (hmem.mpr hm)]
      · rw [if_neg hm, if_neg (fun hc => hm (hmem.mp hc))]

theorem mem_keys_eq_json (m : ModelInfo) (hwf : wfModel m = true) (f : String)
    (fi : FieldInfo) (hf : fieldByName m f = some fi)
    (hmem : f ∈ ((m.fields.filter (fun g => g.stored)).map
        (fun g => g.json)).filter (fun c => c != "id" && c != "ID")) :
    f = fi.json := by
  have h1 := (List.mem_filter.mp hmem).1
  obtain ⟨g, hg, hgj⟩ := List.mem_map.mp h1
  have hgf : g ∈ m.fields := (List.mem_filter.mp hg).1
  have h2 := (wfModel_spec m hwf g hgf).2
  rw [hgj, hf] at h2
  injection h2 with h3
  rw [← hgj, ← h3]

theorem fmapLookup_rowFieldMap (m : ModelInfo) (fi : FieldInfo) (f : String)
    (tr : Record) (hwf : wfModel m = true) (hf : fieldByName m f = some fi)
    (hst : fi.stored = true)
    (hfid1 : f ≠ "id") (hfid2 : f ≠ "ID")
    (hn1 : fi.name ≠ "id") (hn2 : fi.name ≠ "ID")
    (hj1 : fi.json ≠ "id") (hj2 : fi.json ≠ "ID") :
    fmapLookup m
        (rowFieldMap m (filterOnDBFields m (nonRelatedFieldJSONNames m)) tr) f =
      some (recGet m tr fi.json) := by
  have hfi_mem : fi ∈ m.fields := List.mem_of_find?_eq_some hf
  rw [filterOnDBFields_all m hwf]
  unfold rowFieldMap fmapLookup
  rw [fmapGet_cons_ne _ _ _ _ (fun hc => hfid1 hc.symm), fmapGet_keyMap]
  by_cases hmem : f ∈ ((m.fields.filter (fun g => g.stored)).map
      (fun g => g.json)).filter (fun c => c != "id" && c != "ID")
  · rw [if_pos hmem]
    rw [mem_keys_eq_json m hwf f fi hf hmem]
  · rw [if_neg hmem, hf]
    dsimp only
    rw [fmapGet_cons_ne _ _ _ _ (fun hc => hn1 hc.symm), fmapGet_keyMap]
    by_cases hmn : fi.name ∈ ((m.fields.filter (fun g => g.stored)).map
        (fun g => g.json)).filter (fun c => c != "id" && c != "ID")
    · rw [if_pos hmn]
      rw [mem_keys_eq_json m hwf fi.name fi (wfModel_spec m hwf fi hfi_mem).1 hmn]
    · rw [if_neg hmn]
      rw [fmapGet_cons_ne _ _ _ _ (fun hc => hj1 hc.symm), fmapGet_keyMap]
      have hjmem : fi.json ∈ ((m.fields.filter (fun g => g.stored)).map
          (fun g => g.json)).filter (fun c => c != "id" && c != "ID") := by
        refine List.mem_filter.mpr ⟨?_, ?_⟩
        · exact List.mem_map_of_mem _ (List.mem_filter.mpr ⟨hfi_mem, hst⟩)
        · simp [hj1, hj2]
      rw [if_pos hjmem]

theorem selectRows_resolved (σ : EnvState) (m : ModelInfo) (ref : Nat)
    (ids : List Int)
    (hc : (getQuery σ ref).cond = NewCondition.And "ID" "in" (Value.idsV ids))
    (hl : (getQuery σ ref).limit = 0) (ho : (getQuery σ ref).offset = 0) :
    selectRows σ m ref =
      (getTable σ.db m.name).filter (fun r => decide (r.id ∈ ids)) := by
  simp only [selectRows]
  rw [hc, hl, ho]
  rw [show ((0 : Int)).toNat = 0 from rfl, List.drop_zero,
    if_neg (by decide : ¬((0 : Int) > 0))]
  exact List.filter_congr (fun r _ => evalCond_id_in m r ids)

/-- C4: `Get(fieldName)` returns the zero value of the field type on an
empty collection; on a non-empty collection it reads only the FIRST
identifier: if the field is cache-resident for that identifier it returns
the cached value without touching the database, otherwise it triggers
exactly one full-record `Read` and then returns the now-cached value,
which is the stored value of that field in the row of the first identifier. -/
theorem get_zero_cache_read (σ : EnvState) (rc : RecordCollection) (f : String) :
    (∀ fi, rc.ids = [] → fieldByName rc.mi f = some fi →
      Get σ rc f = (σ, Except.ok fi.ftype.zeroValue)) ∧
    (rc.ids ≠ [] → checkIfInCache σ.cache rc.mi [rc.ids.headD 0] [f] = true →
      Get σ rc f =
        (σ, Except.ok
          ((cacheGet σ.cache rc.mi (rc.ids.headD 0) f).getD Value.nilV))) ∧
    (rc.ids ≠ [] → checkIfInCache σ.cache rc.mi [rc.ids.headD 0] [f] = false →
      (Get σ rc f).1 = (Read σ rc []).1 ∧
      (Get σ rc f).1.trips = σ.trips + 1) ∧
    (∀ fi tr,
      rc.ids ≠ [] →
      checkIfInCache σ.cache rc.mi [rc.ids.headD 0] [f] = false →
      wfModel rc.mi = true →
      fieldByName rc.mi f = some fi →
      fi.stored = true →
      f ≠ "id" → f ≠ "ID" → fi.name ≠ "id" → fi.name ≠ "ID" →
      fi.json ≠ "id" → fi.json ≠ "ID" →
      (getQuery σ rc.queryRef).cond =
        NewCondition.And "ID" "in" (Value.idsV rc.ids) →
      (getQuery σ rc.queryRef).limit = 0 →
      (getQuery σ rc.queryRef).offset = 0 →
      tr ∈ getTable σ.db rc.mi.name →
      tr.id = rc.ids.headD 0 →
      ((getTable σ.db rc.mi.name).map (fun r => r.id)).Nodup →
      (Get σ rc f).2 = Except.ok (recGet rc.mi tr fi.json)) := by
  refine ⟨?_, ?_, ?_, ?_⟩
  · intro fi h hf
    have hempty : rc.IsEmpty = true := by
      simp [RecordCollection.IsEmpty, h]
    simp only [Get]
    rw [if_pos hempty, hf]
  · intro h hc
    have hempty : ¬(rc.IsEmpty = true) := by
      simp [RecordCollection.IsEmpty, List.length_eq_zero, h]
    simp only [Get]
    rw [if_neg hempty, if_pos hc]
  · intro h hc
    have hempty : ¬(rc.IsEmpty = true) := by
      simp [RecordCollection.IsEmpty, List.length_eq_zero, h]
    have hcn : ¬(checkIfInCache σ.cache rc.mi [rc.ids.headD 0] [f] = true) := by
      rw [hc]
      exact Bool.false_ne_true
    simp only [Get]
    rw [if_neg hempty, if_neg hcn]
    exact ⟨rfl, Read_trips σ rc []⟩
  · intro fi tr h1 hc hwf hf hst hfid1 hfid2 hn1 hn2 hj1 hj2 hcond hlim hoff
      htr hid hnd
    have hempty : rc.IsEmpty = false := by
      simp [RecordCollection.IsEmpty, List.length_eq_zero, h1]
    have hrows : selectRows σ rc.mi rc.queryRef =
        (getTable σ.db rc.mi.name).filter (fun r => decide (r.id ∈ rc.ids)) :=
      selectRows_resolved σ rc.mi rc.queryRef rc.ids hcond hlim hoff
    have hhead : rc.ids.headD 0 ∈ rc.ids := by
      obtain ⟨a, t, h'⟩ : ∃ a t, rc.ids = a :: t := by
        cases hx : rc.ids with
        | nil => exact absurd hx h1
        | cons a t => exact ⟨a, t, rfl⟩
      rw [h']
      simp
    have hmemrows : tr ∈ selectRows σ rc.mi rc.queryRef := by
      rw [hrows]
      refine List.mem_filter.mpr ⟨htr, ?_⟩
      rw [hid]
      simpa using hhead
    have hndrows : ((selectRows σ rc.mi rc.queryRef).map
        (fun r => r.id)).Nodup := by
      rw [hrows]
      exact hnd.sublist (List.Sublist.map _ (List.filter_sublist _))
    have hslate := Read_slate σ rc [] hndrows tr hmemrows
    have hval : cacheGet (Read σ rc []).1.cache rc.mi (rc.ids.headD 0) f =
        some (recGet rc.mi tr fi.json) := by
      unfold cacheGet
      rw [← hid, hslate]
      rw [show (if ([] : List String).isEmpty
          then nonRelatedFieldJSONNames rc.mi
          else ([] : List String)) = nonRelatedFieldJSONNames rc.mi from rfl]
      rw [Option.some_bind]
      exact fmapLookup_rowFieldMap rc.mi fi f tr hwf hf hst hfid1 hfid2
        hn1 hn2 hj1 hj2
    have hcn : ¬(checkIfInCache σ.cache rc.mi [rc.ids.headD 0] [f] = true) := by
      rw [hc]
      exact Bool.false_ne_true
    have hempty2 : ¬(rc.IsEmpty = true) := by
      rw [hempty]
      exact Bool.false_ne_true
    simp only [Get]
    rw [if_neg hempty2, if_neg hcn]
    dsimp only
    rw [hval]
    rfl

/-- Witness for C4: the zero value on the empty pool collection, and the
read-through value of `UserName` for the resolved singleton Jane. -/
theorem get_zero_cache_read_witness :
    Get stUsers rcUsers "UserName" =
      (stUsers, Except.ok fUserName.ftype.zeroValue) ∧
    (Get stJane rcJane "UserName").2 =
      Except.ok (recGet rcJane.mi recJane fUserName.json) :=
  ⟨(get_zero_cache_read stUsers rcUsers "UserName").1 fUserName rfl (by decide),
   (get_zero_cache_read stJane rcJane "UserName").2.2.2 fUserName recJane
     (by decide) (by decide) (by decide) (by decide) rfl (by decide) (by decide)
     (by decide) (by decide) (by decide) (by decide) (by decide) (by decide)
     (by decide) (by decide) (by decide) (by decide)⟩

end Hexya
